import Mathlib

/-!
Shallow embedding of the RizeOS backend (Node/Express + Mongoose) core logic:
conversation identity, notification fan-out, the job-match fallback scoring
heuristic, AI-output parsing fallbacks, payment recording, pagination, message
sending and the post-like toggle.  Identifiers (Mongo ObjectIds) are modelled
as `String`; the document store is modelled as explicit lists of records
threaded through each handler; JavaScript numbers on the scoring path are
modelled as `ℚ` with `Math.round` made explicit.
-/

/-- `Message.generateConversationId` from `src/models/User.js` (Message schema):
stringifies both user ids, sorts the pair (JS default lexicographic sort) and
joins with `_`. -/
def generateConversationId (userId1 userId2 : String) : String :=
  if userId1 ≤ userId2 then userId1 ++ "_" ++ userId2 else userId2 ++ "_" ++ userId1

/-- An identifier is separator-free when the join separator `_` does not occur
in it (true of the hex ObjectIds the backend passes in). -/
def sepFree (s : String) : Prop := '_' ∉ s.data

instance (s : String) : Decidable (sepFree s) := by
  unfold sepFree; infer_instance

/-- Splitting at a separator character is unambiguous when the parts left of
the separator do not contain it. -/
theorem sep_split (u : List Char) : ∀ (u' v v' : List Char), '_' ∉ u → '_' ∉ u' →
    u ++ '_' :: v = u' ++ '_' :: v' → u = u' ∧ v = v' := by
  induction u with
  | nil =>
    intro u' v v' _ hu' h
    cases u' with
    | nil => simpa using h
    | cons c t =>
      simp only [List.nil_append, List.cons_append, List.cons.injEq] at h
      exact absurd (h.1 ▸ List.mem_cons_self c t) hu'
  | cons c t ih =>
    intro u' v v' hu hu' h
    cases u' with
    | nil =>
      simp only [List.cons_append, List.nil_append, List.cons.injEq] at h
      exact absurd (h.1 ▸ List.mem_cons_self c t) hu
    | cons c' t' =>
      simp only [List.cons_append, List.cons.injEq] at h
      obtain ⟨rfl, h2⟩ := h
      have ht : '_' ∉ t := fun hm => hu (List.mem_cons_of_mem _ hm)
      have ht' : '_' ∉ t' := fun hm => hu' (List.mem_cons_of_mem _ hm)
      obtain ⟨rfl, rfl⟩ := ih t' v v' ht ht' h2
      exact ⟨rfl, rfl⟩

/-- Joining two separator-free strings with `_` is injective in both parts. -/
theorem join_inj (a b a' b' : String) (ha : sepFree a) (ha' : sepFree a')
    (h : a ++ "_" ++ b = a' ++ "_" ++ b') : a = a' ∧ b = b' := by
  have hd : a.data ++ '_' :: b.data = a'.data ++ '_' :: b'.data := by
    have hc := congrArg String.data h
    simpa [String.data_append] using hc
  obtain ⟨h1, h2⟩ := sep_split a.data a'.data b.data b'.data ha ha' hd
  exact ⟨String.ext h1, String.ext h2⟩

/-- C1: the conversation key is order-independent, and on separator-free
identifiers (such as the hex ObjectIds actually used) two unordered pairs
sharing a user produce distinct keys. -/
theorem generateConversationId_comm_and_pairInj (a b c : String) :
    generateConversationId a b = generateConversationId b a ∧
    (sepFree a → sepFree b → sepFree c → b ≠ c →
      generateConversationId a b ≠ generateConversationId a c) := by
  constructor
  · unfold generateConversationId
    rcases le_total a b with hab | hba
    · rw [if_pos hab]
      by_cases hba' : b ≤ a
      · rw [if_pos hba', le_antisymm hab hba']
      · rw [if_neg hba']
    · rw [if_pos hba]
      by_cases hab' : a ≤ b
      · rw [if_pos hab', le_antisymm hab' hba]
      · rw [if_neg hab']
  · intro ha hb hc hbc
    unfold generateConversationId
    by_cases h1 : a ≤ b <;> by_cases h2 : a ≤ c <;>
      [rw [if_pos h1, if_pos h2]; rw [if_pos h1, if_neg h2];
       rw [if_neg h1, if_pos h2]; rw [if_neg h1, if_neg h2]] <;> intro heq
    · exact hbc (join_inj a b a c ha ha heq).2
    · obtain ⟨rfl, rfl⟩ := join_inj a b c a ha hc heq
      exact hbc rfl
    · obtain ⟨rfl, rfl⟩ := join_inj b a a c hb ha heq
      exact hbc rfl
    · exact hbc (join_inj b a c a hb hc heq).1

/-- C1 witness: the theorem applied at concrete separator-free ids. -/
theorem generateConversationId_comm_and_pairInj_inst :
    generateConversationId "aa" "bb" = generateConversationId "bb" "aa" ∧
    generateConversationId "aa" "bb" ≠ generateConversationId "aa" "cc" :=
  ⟨(generateConversationId_comm_and_pairInj "aa" "bb" "cc").1,
   (generateConversationId_comm_and_pairInj "aa" "bb" "cc").2
     (by decide) (by decide) (by decide) (by decide)⟩

/-- C1 counterexample: with the separator `_` allowed inside identifiers, two
distinct unordered pairs sharing a user can collide, so the distinctness part
of the claim fails as stated for arbitrary identifiers. -/
theorem generateConversationId_collision :
    generateConversationId "ab_cd_ab" "ab_cd" = generateConversationId "ab_cd_ab" "cd_ab" ∧
    ("ab_cd" : String) ≠ "cd_ab" := by
  have h1 : ¬ ("ab_cd_ab" : String) ≤ "ab_cd" := by
    intro h
    exact absurd (String.le_iff_toList_le.mp h) (by decide)
  have h2 : ("ab_cd_ab" : String) ≤ "cd_ab" := String.le_iff_toList_le.mpr (by decide)
  constructor
  · unfold generateConversationId
    rw [if_neg h1, if_pos h2]
    rfl
  · decide

/-- A persisted notification record, after `src/models/Notification.js`; the
schema defaults `read` to `false`. Subject references and the custom message
text are optional. -/
structure Notification where
  recipient : String
  sender : String
  type : String
  post : Option String
  job : Option String
  message : Option String
  read : Bool
deriving DecidableEq

/-- The `createNotification` helper of the notifications router
(`src/routes/messages.js`, second file): when the recipient equals the sender
it returns `null` and persists nothing; otherwise it saves exactly one record,
whose `read` flag takes the schema default `false`.  The store is the list of
persisted notifications, threaded explicitly. -/
def createNotification (db : List Notification) (recipient sender type : String)
    (post job message : Option String) : Option Notification × List Notification :=
  if recipient = sender then (none, db)
  else
    let n : Notification :=
      { recipient := recipient, sender := sender, type := type,
        post := post, job := job, message := message, read := false }
    (some n, db ++ [n])

/-- C2: `createNotification` with recipient = sender persists nothing and
returns a suppressed (null) result; with recipient distinct from sender it
persists exactly one record with `read = false`. -/
theorem createNotification_suppress_or_persist (db : List Notification)
    (r s t : String) (p j m : Option String) :
    (r = s → createNotification db r s t p j m = (none, db)) ∧
    (r ≠ s → ∃ n : Notification,
      createNotification db r s t p j m = (some n, db ++ [n]) ∧
      n.read = false ∧ (db ++ [n]).length = db.length + 1) := by
  constructor
  · intro h
    simp [createNotification, h]
  · intro h
    refine ⟨{ recipient := r, sender := s, type := t, post := p, job := j,
              message := m, read := false }, ?_, rfl, by simp⟩
    simp [createNotification, h]

/-- C2 witness: the theorem applied at a self pair and at a distinct pair. -/
theorem createNotification_suppress_or_persist_inst :
    createNotification [] "a" "a" "post_like" none none none = (none, []) ∧
    ∃ n : Notification,
      createNotification [] "a" "b" "post_like" none none none = (some n, [] ++ [n]) ∧
      n.read = false ∧ (([] : List Notification) ++ [n]).length = ([] : List Notification).length + 1 :=
  ⟨(createNotification_suppress_or_persist [] "a" "a" "post_like" none none none).1 rfl,
   (createNotification_suppress_or_persist [] "a" "b" "post_like" none none none).2 (by decide)⟩

/-- The like-toggle handler `POST /:postId/like` of the posts router
(`src/unnamed/part_002`): if the requester is already in `post.likes`
(`indexOf > -1`) the first occurrence is spliced out; otherwise the requester
is appended and `createNotification` is invoked with the post author as
recipient.  Returns the updated likes list and notification store. -/
def likePost (db : List Notification) (likes : List String)
    (author postId uid : String) : List String × List Notification :=
  if uid ∈ likes then (likes.erase uid, db)
  else (likes ++ [uid],
        (createNotification db author uid "post_like" (some postId) none none).2)

/-- C10 counterexample: a second like by a user who was already in the likes
list does not restore the original list (order changes), and a self-like
creates no notification even on the like branch. -/
theorem likePost_counterexample :
    (likePost (likePost [] ["u", "v"] "a" "p" "u").2
      (likePost [] ["u", "v"] "a" "p" "u").1 "a" "p" "u").1 = ["v", "u"] ∧
    (["v", "u"] : List String) ≠ ["u", "v"] ∧
    (likePost [] [] "u" "p" "u").2 = [] := by
  refine ⟨rfl, by decide, rfl⟩

/-- C10 (amended): the like operation is a membership toggle — removal of the
first occurrence with no notification when the user is present, append plus a
notification to the author (unless the liker is the author) when absent;
duplicate-freeness of the likes list is preserved, and a double like by a user
not already present restores the original list. -/
theorem likePost_toggle_spec (db : List Notification) (likes : List String)
    (author postId uid : String) :
    (uid ∈ likes → likePost db likes author postId uid = (likes.erase uid, db)) ∧
    (uid ∉ likes →
      (likePost db likes author postId uid).1 = likes ++ [uid] ∧
      (uid ≠ author → ∃ n : Notification,
        (likePost db likes author postId uid).2 = db ++ [n]) ∧
      (uid = author → (likePost db likes author postId uid).2 = db)) ∧
    (likes.Nodup → ((likePost db likes author postId uid).1).Nodup) ∧
    (uid ∉ likes →
      (likePost ((likePost db likes author postId uid).2)
        ((likePost db likes author postId uid).1) author postId uid).1 = likes) := by
  refine ⟨?_, ?_, ?_, ?_⟩
  · intro h
    simp [likePost, h]
  · intro h
    refine ⟨by simp [likePost, h], ?_, ?_⟩
    · intro hne
      refine ⟨{ recipient := author, sender := uid, type := "post_like",
                post := some postId, job := none, message := none, read := false }, ?_⟩
      simp [likePost, h, createNotification, Ne.symm hne]
    · intro heq
      subst heq
      simp [likePost, h, createNotification]
  · intro hnd
    by_cases h : uid ∈ likes
    · simpa [likePost, h] using hnd.erase uid
    · simp [likePost, h, List.nodup_append, hnd]
  · intro h
    have hm : uid ∈ likes ++ [uid] := by simp
    simp only [likePost, if_neg h, if_pos hm]
    rw [List.erase_append_right _ h]
    simp

/-- C10 witness: the amended toggle theorem applied at concrete inputs. -/
theorem likePost_toggle_spec_inst :
    likePost [] ["u"] "a" "p" "u" = (["u"].erase "u", []) ∧
    (likePost [] ["w"] "a" "p" "u").1 = ["w"] ++ ["u"] ∧
    (∃ n : Notification, (likePost [] ["w"] "a" "p" "u").2 = [] ++ [n]) ∧
    (likePost ((likePost [] ["w"] "a" "p" "u").2)
      ((likePost [] ["w"] "a" "p" "u").1) "a" "p" "u").1 = ["w"] :=
  ⟨(likePost_toggle_spec [] ["u"] "a" "p" "u").1 (by decide),
   ((likePost_toggle_spec [] ["w"] "a" "p" "u").2.1 (by decide)).1,
   ((likePost_toggle_spec [] ["w"] "a" "p" "u").2.1 (by decide)).2.1 (by decide),
   (likePost_toggle_spec [] ["w"] "a" "p" "u").2.2.2 (by decide)⟩

/-- A payment ledger entry, after the Payment schema in `src/server.js`
(second file): `transactionHash` is the uniqueness key; the amount is the
env-derived platform fee, modelled as a rational parameter. -/
structure Payment where
  user : String
  transactionHash : String
  blockchain : String
  amount : ℚ
  currency : String
  fromAddress : String
  toAddress : String
  purpose : String
  status : String
deriving DecidableEq

/-- Outcome of a payment-recording request. -/
inductive PaymentResult where
  | badRequest (msg : String)
  | ok (p : Payment)
deriving DecidableEq

/-- The `POST /verify-eth` handler of the payments router
(`src/unnamed/part_002`): rejects missing fields, returns a conflict when a
ledger entry with the same transaction hash exists (`Payment.findOne`),
otherwise appends one confirmed `job_posting` entry.  Missing request fields
are modelled as empty strings (JS falsiness). -/
def verifyEth (db : List Payment) (userId transactionHash blockchain
    fromAddress adminWallet : String) (fee : ℚ) : PaymentResult × List Payment :=
  if transactionHash = "" ∨ blockchain = "" then
    (.badRequest "Transaction hash and blockchain are required", db)
  else
    match db.find? (fun p => p.transactionHash == transactionHash) with
    | some _ => (.badRequest "Payment already recorded", db)
    | none =>
      let p : Payment :=
        { user := userId, transactionHash := transactionHash,
          blockchain := blockchain, amount := fee,
          currency := if blockchain = "ethereum" then "ETH" else "MATIC",
          fromAddress := fromAddress, toAddress := adminWallet,
          purpose := "job_posting", status := "confirmed" }
      (.ok p, db ++ [p])

/-- C6: once a transaction hash has been recorded, submitting it again returns
the conflict response, leaves the ledger unchanged, and the ledger holds
exactly one entry for that hash. -/
theorem verifyEth_duplicate_conflict (db : List Payment)
    (u1 u2 tx ch1 ch2 fa1 fa2 aw1 aw2 : String) (fee1 fee2 : ℚ)
    (htx : tx ≠ "") (hch1 : ch1 ≠ "") (hch2 : ch2 ≠ "")
    (hfresh : ∀ p ∈ db, p.transactionHash ≠ tx) :
    (verifyEth (verifyEth db u1 tx ch1 fa1 aw1 fee1).2 u2 tx ch2 fa2 aw2 fee2).1 =
      .badRequest "Payment already recorded" ∧
    (verifyEth (verifyEth db u1 tx ch1 fa1 aw1 fee1).2 u2 tx ch2 fa2 aw2 fee2).2 =
      (verifyEth db u1 tx ch1 fa1 aw1 fee1).2 ∧
    ((verifyEth db u1 tx ch1 fa1 aw1 fee1).2.filter
      (fun p => p.transactionHash == tx)).length = 1 := by
  have hc1 : ¬(tx = "" ∨ ch1 = "") := by
    rintro (h | h)
    exacts [htx h, hch1 h]
  have hc2 : ¬(tx = "" ∨ ch2 = "") := by
    rintro (h | h)
    exacts [htx h, hch2 h]
  have hnone : db.find? (fun p => p.transactionHash == tx) = none := by
    rw [List.find?_eq_none]
    intro p hp
    simpa using hfresh p hp
  set newp : Payment :=
    { user := u1, transactionHash := tx, blockchain := ch1, amount := fee1,
      currency := if ch1 = "ethereum" then "ETH" else "MATIC",
      fromAddress := fa1, toAddress := aw1,
      purpose := "job_posting", status := "confirmed" } with hnewp
  have hdb1 : (verifyEth db u1 tx ch1 fa1 aw1 fee1).2 = db ++ [newp] := by
    unfold verifyEth
    rw [if_neg hc1, hnone]
  have hfind2 : (db ++ [newp]).find? (fun p => p.transactionHash == tx) = some newp := by
    rw [List.find?_append, hnone]
    simp [hnewp]
  refine ⟨?_, ?_, ?_⟩
  · rw [hdb1]
    unfold verifyEth
    rw [if_neg hc2, hfind2]
  · rw [hdb1]
    unfold verifyEth
    rw [if_neg hc2, hfind2]
  · rw [hdb1, List.filter_append]
    have hdbnil : db.filter (fun p => p.transactionHash == tx) = [] := by
      rw [List.filter_eq_nil_iff]
      intro p hp
      simpa using hfresh p hp
    rw [hdbnil]
    simp [hnewp]

/-- C6 witness: the duplicate-hash theorem applied on an empty ledger with a
concrete transaction hash. -/
theorem verifyEth_duplicate_conflict_inst :
    (verifyEth (verifyEth [] "u1" "0xabc" "ethereum" "0xf" "0xa" 0).2
        "u2" "0xabc" "polygon" "0xf" "0xa" 0).1 =
      .badRequest "Payment already recorded" ∧
    (verifyEth (verifyEth [] "u1" "0xabc" "ethereum" "0xf" "0xa" 0).2
        "u2" "0xabc" "polygon" "0xf" "0xa" 0).2 =
      (verifyEth [] "u1" "0xabc" "ethereum" "0xf" "0xa" 0).2 ∧
    ((verifyEth [] "u1" "0xabc" "ethereum" "0xf" "0xa" 0).2.filter
      (fun p => p.transactionHash == "0xabc")).length = 1 :=
  verifyEth_duplicate_conflict [] "u1" "u2" "0xabc" "ethereum" "polygon"
    "0xf" "0xf" "0xa" "0xa" 0 0 (by decide) (by decide) (by decide)
    (by intro p hp; simp at hp)

/-- ASCII whitespace recognised by the JavaScript `trim` / `\s` class
(space, tab, newline, carriage return, vertical tab, form feed); the Unicode
space classes are not modelled. -/
def jsWhitespace (c : Char) : Bool :=
  c == ' ' || c == '\t' || c == '\n' || c == '\r' || c == '\x0b' || c == '\x0c'

/-- Strip leading and trailing whitespace from a character list. -/
def trimL (cs : List Char) : List Char :=
  ((cs.dropWhile jsWhitespace).reverse.dropWhile jsWhitespace).reverse

/-- JavaScript `String.prototype.trim`. -/
def jsTrim (s : String) : String := ⟨trimL s.data⟩

/-- A message record, after the Message schema in `src/models/User.js`
(second file): conversationId, sender, receiver, trimmed content, read flag
defaulting to `false`. -/
structure Message where
  conversationId : String
  sender : String
  receiver : String
  content : String
  read : Bool
deriving DecidableEq

/-- Outcome of a send-message request. -/
inductive SendResult where
  | badRequest (msg : String)
  | notFound (msg : String)
  | created (m : Message)
deriving DecidableEq

/-- The `POST /send` handler of `src/routes/messages.js`: validates presence
of receiver and non-blank content, checks the receiver exists, rejects
self-messaging, then persists one message keyed by the derived conversation
id.  `users` is the set of existing user ids; missing fields are empty
strings. -/
def sendMessage (users : List String) (db : List Message)
    (userId receiverId content : String) : SendResult × List Message :=
  if receiverId = "" ∨ jsTrim content = "" then
    (.badRequest "Receiver and message content are required", db)
  else if receiverId ∉ users then (.notFound "Receiver not found", db)
  else if receiverId = userId then
    (.badRequest "Cannot send message to yourself", db)
  else
    let m : Message :=
      { conversationId := generateConversationId userId receiverId,
        sender := userId, receiver := receiverId,
        content := jsTrim content, read := false }
    (.created m, db ++ [m])

/-- C9: a send-message request whose receiver is the authenticated sender
fails with the 400 validation error and persists no message record. -/
theorem sendMessage_self_rejected (users : List String) (db : List Message)
    (uid content : String) (hu : uid ∈ users) (hne : uid ≠ "")
    (hc : jsTrim content ≠ "") :
    sendMessage users db uid uid content =
      (.badRequest "Cannot send message to yourself", db) := by
  unfold sendMessage
  rw [if_neg (by rintro (h | h); exacts [hne h, hc h]),
      if_neg (by simpa using hu), if_pos rfl]

/-- C9 witness: the self-send rejection at a concrete user and content. -/
theorem sendMessage_self_rejected_inst :
    sendMessage ["u"] [] "u" "u" "hi" =
      (.badRequest "Cannot send message to yourself", []) :=
  sendMessage_self_rejected ["u"] [] "u" "hi" (by decide) (by decide) (by decide)

/-- Does `needle` occur at the head of `hay`? (code-point comparison, as JS
compares code units). -/
def beginsWith : List Char → List Char → Bool
  | [], _ => true
  | _ :: _, [] => false
  | n :: ns, h :: hs => n == h && beginsWith ns hs

/-- Does `needle` occur anywhere in `hay`? -/
def containsSub (needle : List Char) : List Char → Bool
  | [] => beginsWith needle []
  | c :: rest => beginsWith needle (c :: rest) || containsSub needle rest

/-- JavaScript `hay.includes(needle)`. -/
def jsIncludes (hay needle : String) : Bool := containsSub needle.data hay.data

/-- JavaScript `toLowerCase`, modelled per character. -/
def jsToLower (s : String) : String := ⟨s.data.map Char.toLower⟩

/-- The skill-overlap filter of the job-match fallback (`src/unnamed/part_000`,
`POST /job-match`): a candidate skill matches when some job skill contains it
or it contains that job skill, case-insensitively. -/
def skillMatches (userSkills jobSkills : List String) : List String :=
  userSkills.filter fun skill => jobSkills.any fun jobSkill =>
    jsIncludes (jsToLower jobSkill) (jsToLower skill) ||
    jsIncludes (jsToLower skill) (jsToLower jobSkill)

/-- Fallback skill score: `(matches / max(jobSkillCount, 1)) * 40`. -/
def skillScore (userSkills jobSkills : List String) : ℚ :=
  ((skillMatches userSkills jobSkills).length : ℚ) / (max jobSkills.length 1 : ℚ) * 40

/-- The `expLevelMap` of the fallback, with `[0, 2]` as the default band. -/
def expLevelRange (experienceLevel : String) : ℚ × ℚ :=
  if experienceLevel = "entry" then (0, 2)
  else if experienceLevel = "mid" then (2, 5)
  else if experienceLevel = "senior" then (5, 10)
  else if experienceLevel = "lead" then (8, 20)
  else (0, 2)

/-- Fallback experience score: 30 inside `[min, max+2]`, 20 above `min`
otherwise, else 0. -/
def expScore (totalYears : ℚ) (experienceLevel : String) : ℚ :=
  if (expLevelRange experienceLevel).1 ≤ totalYears ∧
      totalYears ≤ (expLevelRange experienceLevel).2 + 2 then 30
  else if (expLevelRange experienceLevel).1 ≤ totalYears then 20
  else 0

/-- Fallback location score: 15 for remote work mode or when the job location
contains the (JS-truthy) profile location case-insensitively, else 5.  The
route defaults an absent profile location to the non-empty string
`Not specified` before this check. -/
def locationScore (workMode userLocation jobLocation : String) : ℚ :=
  if workMode = "remote" ∨
      (userLocation ≠ "" ∧ jsIncludes (jsToLower jobLocation) (jsToLower userLocation) = true)
  then 15 else 5

/-- Fallback education score: 15 with at least one education entry, else 5. -/
def educationScore (educationCount : ℕ) : ℚ :=
  if 0 < educationCount then 15 else 5

/-- JavaScript `Math.round` (round half toward positive infinity). -/
def jsRound (q : ℚ) : ℤ := ⌊q + 1 / 2⌋

/-- Rounding an integer value returns it unchanged. -/
theorem jsRound_intCast (n : ℤ) : jsRound (n : ℚ) = n := by
  unfold jsRound
  rw [add_comm, Int.floor_add_int]
  have h0 : ⌊(1 / 2 : ℚ)⌋ = 0 := by
    rw [Int.floor_eq_zero_iff]
    constructor <;> norm_num
  rw [h0, zero_add]

/-- Fallback total: the rounded sum of the four component scores. -/
def totalMatchScore (userSkills jobSkills : List String) (totalYears : ℚ)
    (experienceLevel workMode userLocation jobLocation : String)
    (educationCount : ℕ) : ℤ :=
  jsRound (skillScore userSkills jobSkills + expScore totalYears experienceLevel +
    locationScore workMode userLocation jobLocation + educationScore educationCount)

/-- The category thresholds applied to the rounded total
(`totalScore >= 90 / 70 / 50`, else partial). -/
def matchCategory (totalScore : ℤ) : String :=
  if totalScore ≥ 90 then "Gold Match"
  else if totalScore ≥ 70 then "Strong Match"
  else if totalScore ≥ 50 then "Good Match"
  else "Partial Match"

/-- On the documented example exactly one candidate skill matches. -/
theorem skillMatches_example :
    skillMatches ["Python", "React"] ["python", "Vue"] = ["Python"] := by decide

/-- Skill score of the documented example: one match out of two job skills. -/
theorem skillScore_example : skillScore ["Python", "React"] ["python", "Vue"] = 20 := by
  unfold skillScore
  rw [skillMatches_example]
  norm_num

/-- Experience score of the documented example: 3 years in the mid band. -/
theorem expScore_example : expScore 3 "mid" = 30 := by
  have hr : expLevelRange "mid" = (2, 5) := by
    unfold expLevelRange
    rw [if_neg (by decide), if_pos rfl]
  unfold expScore
  rw [hr, if_pos (by constructor <;> norm_num)]

/-- Location score of the documented example: remote work mode. -/
theorem locationScore_example : locationScore "remote" "Not specified" "New York" = 15 := by
  decide

/-- Education score of the documented example: no education entries. -/
theorem educationScore_example : educationScore 0 = 5 := by decide

/-- Total score of the documented example: round(20 + 30 + 15 + 5) = 70. -/
theorem totalMatchScore_example :
    totalMatchScore ["Python", "React"] ["python", "Vue"] 3 "mid" "remote"
      "Not specified" "New York" 0 = 70 := by
  unfold totalMatchScore
  rw [skillScore_example, expScore_example, locationScore_example, educationScore_example]
  have hsum : (20 : ℚ) + 30 + 15 + 5 = ((70 : ℤ) : ℚ) := by norm_num
  rw [hsum, jsRound_intCast]

/-- C4: the deterministic fallback on the documented example — one of two job
skills matched, 3 years within the mid band, remote work mode, no education —
scores 20 + 30 + 15 + 5 = 70, category Strong Match. -/
theorem fallback_score_example :
    skillScore ["Python", "React"] ["python", "Vue"] = 20 ∧
    expScore 3 "mid" = 30 ∧
    locationScore "remote" "Not specified" "New York" = 15 ∧
    educationScore 0 = 5 ∧
    totalMatchScore ["Python", "React"] ["python", "Vue"] 3 "mid" "remote"
      "Not specified" "New York" 0 = 70 ∧
    matchCategory 70 = "Strong Match" :=
  ⟨skillScore_example, expScore_example, locationScore_example,
   educationScore_example, totalMatchScore_example, by decide⟩

/-- C5: the category boundaries are inclusive lower bounds at 90, 70 and 50. -/
theorem matchCategory_boundaries :
    matchCategory 90 = "Gold Match" ∧ matchCategory 89 = "Strong Match" ∧
    matchCategory 70 = "Strong Match" ∧ matchCategory 69 = "Good Match" ∧
    matchCategory 50 = "Good Match" ∧ matchCategory 49 = "Partial Match" := by
  refine ⟨by decide, by decide, by decide, by decide, by decide, by decide⟩

/-- The parsed or fallback match analysis returned by the job-match route;
the empty JavaScript object `\x7b\x7d` left by a span-less AI response has all
fields absent. -/
structure MatchData where
  matchScore : Option ℤ
  matchCategory : Option String
  strengths : List String
  gaps : List String
  recommendation : Option String
deriving DecidableEq

/-- The `matchData = \x7b\x7d` object left when no JSON span is found. -/
def emptyMatchData : MatchData :=
  { matchScore := none, matchCategory := none, strengths := [],
    gaps := [], recommendation := none }

/-- The complete fallback analysis object built in the catch branch of
`POST /job-match` (`src/unnamed/part_000`). -/
def fallbackMatchData (userSkills jobSkills : List String) (totalYears : ℚ)
    (experienceLevel workMode userLocation jobLocation : String)
    (educationCount : ℕ) : MatchData :=
  let sm := skillMatches userSkills jobSkills
  let total := totalMatchScore userSkills jobSkills totalYears experienceLevel
    workMode userLocation jobLocation educationCount
  { matchScore := some total,
    matchCategory := some (matchCategory total),
    strengths :=
      if 0 < sm.length then
        [toString sm.length ++ " matching skills: " ++
          String.intercalate (", ") (sm.take 3)]
      else ["Review job requirements carefully"],
    gaps :=
      if sm.length < jobSkills.length then
        ["Consider upskilling in required technologies"]
      else [],
    recommendation :=
      some (if 70 ≤ total then "Strong candidate - Apply now!"
        else "Review requirements and highlight relevant experience") }

/-- The span matched by the regex `/\x7b[\s\S]*\x7d/` — from the first opening
brace to the last closing brace, when the latter comes after the former. -/
def jsFirstObjSpan (s : String) : Option String :=
  match s.data.findIdx? (fun c => c == '\x7b'), s.data.reverse.findIdx? (fun c => c == '\x7d') with
  | some i, some jr =>
    let j := s.data.length - 1 - jr
    if i < j then some ⟨(s.data.drop i).take (j + 1 - i)⟩ else none
  | _, _ => none

/-- Observable outcome of the `POST /job-match` route. -/
inductive JobMatchResult where
  | serverError (msg : String)
  | ok (matchData : MatchData)
deriving DecidableEq

/-- The response computation of `POST /job-match` (`src/unnamed/part_000`)
after user and job are loaded: an AI failure is caught by the outer handler
as a 500; otherwise the first `\x7b...\x7d` span of the response is parsed as
JSON (`parse`, `none` when `JSON.parse` throws); only a failed parse of a
found span runs the deterministic fallback, and a span-less response leaves
the empty match object. -/
def jobMatchHandler (parse : String → Option MatchData) (ai : Except String String)
    (userSkills jobSkills : List String) (totalYears : ℚ)
    (experienceLevel workMode userLocation jobLocation : String)
    (educationCount : ℕ) : JobMatchResult :=
  match ai with
  | .error _ => .serverError "Failed to analyze job match"
  | .ok text =>
    match jsFirstObjSpan text with
    | none => .ok emptyMatchData
    | some span =>
      match parse span with
      | some d => .ok d
      | none => .ok (fallbackMatchData userSkills jobSkills totalYears
          experienceLevel workMode userLocation jobLocation educationCount)

/-- C3 counterexample: a failing AI call surfaces the 500 error (outer catch)
and a response with no JSON object span returns the empty match object — in
neither case does the caller receive the fallback score (the fallback on
these profile inputs would carry score 70). -/
theorem jobMatch_counterexample :
    jobMatchHandler (fun _ => none) (.error "AI service error")
      ["Python", "React"] ["python", "Vue"] 3 "mid" "remote" "Not specified"
      "New York" 0 = .serverError "Failed to analyze job match" ∧
    jobMatchHandler (fun _ => none) (.ok "The candidate is a good fit.")
      ["Python", "React"] ["python", "Vue"] 3 "mid" "remote" "Not specified"
      "New York" 0 = .ok emptyMatchData ∧
    emptyMatchData.matchScore = none ∧
    (fallbackMatchData ["Python", "React"] ["python", "Vue"] 3 "mid" "remote"
      "Not specified" "New York" 0).matchScore = some 70 := by
  refine ⟨rfl, rfl, rfl, ?_⟩
  show some (totalMatchScore ["Python", "React"] ["python", "Vue"] 3 "mid"
    "remote" "Not specified" "New York" 0) = some 70
  rw [totalMatchScore_example]

/-- C3 (amended): the deterministic fallback result is returned exactly when
the AI response contains a brace-delimited span that fails to parse; a failed
AI call is answered with the 500 error and a span-less response with the
empty match object. -/
theorem jobMatch_fallback_trigger (parse : String → Option MatchData)
    (e text span : String) (userSkills jobSkills : List String) (totalYears : ℚ)
    (experienceLevel workMode userLocation jobLocation : String)
    (educationCount : ℕ) :
    (jobMatchHandler parse (.error e) userSkills jobSkills totalYears
      experienceLevel workMode userLocation jobLocation educationCount =
      .serverError "Failed to analyze job match") ∧
    (jsFirstObjSpan text = none →
      jobMatchHandler parse (.ok text) userSkills jobSkills totalYears
        experienceLevel workMode userLocation jobLocation educationCount =
        .ok emptyMatchData) ∧
    (jsFirstObjSpan text = some span → parse span = none →
      jobMatchHandler parse (.ok text) userSkills jobSkills totalYears
        experienceLevel workMode userLocation jobLocation educationCount =
        .ok (fallbackMatchData userSkills jobSkills totalYears experienceLevel
          workMode userLocation jobLocation educationCount)) := by
  refine ⟨rfl, ?_, ?_⟩
  · intro h
    simp only [jobMatchHandler, h]
  · intro h hp
    simp only [jobMatchHandler, h, hp]

/-- C3 witness: the trigger theorem at a concrete unparseable span, a failing
call and a span-less response. -/
theorem jobMatch_fallback_trigger_inst :
    jobMatchHandler (fun _ => none) (.error "AI service error")
      ["Python"] ["python"] 3 "mid" "remote" "x" "y" 0 =
      .serverError "Failed to analyze job match" ∧
    jobMatchHandler (fun _ => none) (.ok "plain text")
      ["Python"] ["python"] 3 "mid" "remote" "x" "y" 0 = .ok emptyMatchData ∧
    jobMatchHandler (fun _ => none) (.ok "x\x7by\x7d")
      ["Python"] ["python"] 3 "mid" "remote" "x" "y" 0 =
      .ok (fallbackMatchData ["Python"] ["python"] 3 "mid" "remote" "x" "y" 0) :=
  ⟨(jobMatch_fallback_trigger (fun _ => none) "AI service error" "plain text"
      "\x7by\x7d" ["Python"] ["python"] 3 "mid" "remote" "x" "y" 0).1,
   (jobMatch_fallback_trigger (fun _ => none) "AI service error" "plain text"
      "\x7by\x7d" ["Python"] ["python"] 3 "mid" "remote" "x" "y" 0).2.1 rfl,
   (jobMatch_fallback_trigger (fun _ => none) "AI service error" "x\x7by\x7d"
      "\x7by\x7d" ["Python"] ["python"] 3 "mid" "remote" "x" "y" 0).2.2 rfl rfl⟩

/-- Characters deleted by the skill-extraction fallback replace
(`/["[]]/g` over quote and square brackets). -/
def strippedChar (c : Char) : Bool := c == '\x22' || c == '[' || c == ']'

/-- The split class of the fallback (`/[,\n]/`). -/
def sepChar (c : Char) : Bool := c == ',' || c == '\n'

/-- JavaScript `split` on the separator class: one fragment per gap,
including empty fragments. -/
def splitSeps : List Char → List (List Char)
  | [] => [[]]
  | c :: rest =>
    if sepChar c then [] :: splitSeps rest
    else
      match splitSeps rest with
      | [] => [[c]]
      | f :: fs => (c :: f) :: fs

/-- The span matched by `/[.*]/s` over square brackets — first opening to
last closing bracket when the latter comes after the former
(`POST /extract-skills`, `src/unnamed/part_000`). -/
def jsFirstArrSpan (s : String) : Option String :=
  match s.data.findIdx? (fun c => c == '['), s.data.reverse.findIdx? (fun c => c == ']') with
  | some i, some jr =>
    let j := s.data.length - 1 - jr
    if i < j then some ⟨(s.data.drop i).take (j + 1 - i)⟩ else none
  | _, _ => none

/-- The comma/newline splitting fallback of `POST /extract-skills`: strip
quotes and brackets, split on commas and newlines, trim each fragment and
drop the empty ones. -/
def fallbackSkills (aiResponse : String) : List String :=
  (((splitSeps (aiResponse.data.filter (fun c => !strippedChar c))).map trimL).filter
    (fun f => !f.isEmpty)).map fun f => (⟨f⟩ : String)

/-- The response list of `POST /extract-skills`: JSON-parse a bracket span
when present (`parseArr` is `none` when `JSON.parse` throws, which the catch
turns into the splitting fallback); otherwise fall back; cap at 20 skills. -/
def extractSkillsHandler (parseArr : String → Option (List String))
    (aiResponse : String) : List String :=
  (match jsFirstArrSpan aiResponse with
   | some span =>
     match parseArr span with
     | some skills => skills
     | none => fallbackSkills aiResponse
   | none => fallbackSkills aiResponse).take 20

/-- `splitSeps` always produces at least one fragment. -/
theorem splitSeps_ne_nil (cs : List Char) : splitSeps cs ≠ [] := by
  cases cs with
  | nil => simp [splitSeps]
  | cons c rest =>
    by_cases h : sepChar c
    · simp [splitSeps, h]
    · simp only [splitSeps, if_neg h]
      cases splitSeps rest <;> simp

/-- A non-separator character lands inside some fragment of the split. -/
theorem mem_splitSeps (c : Char) (cs : List Char) (hm : c ∈ cs)
    (hc : sepChar c = false) : ∃ f ∈ splitSeps cs, c ∈ f := by
  induction cs with
  | nil => cases hm
  | cons d rest ih =>
    rcases List.mem_cons.mp hm with rfl | hmr
    · simp only [splitSeps, hc, Bool.false_eq_true, if_false]
      rcases splitSeps rest with _ | ⟨f, fs⟩
      · exact ⟨[c], by simp, by simp⟩
      · exact ⟨c :: f, by simp, by simp⟩
    · obtain ⟨f, hf, hcf⟩ := ih hmr
      by_cases hd : sepChar d
      · refine ⟨f, ?_, hcf⟩
        simp [splitSeps, hd, hf]
      · obtain ⟨g, gs, hgg⟩ := List.exists_cons_of_ne_nil (splitSeps_ne_nil rest)
        rw [hgg] at hf
        simp only [splitSeps, if_neg hd, hgg]
        rcases List.mem_cons.mp hf with rfl | hffs
        · exact ⟨d :: f, by simp, List.mem_cons_of_mem d hcf⟩
        · exact ⟨f, by simp [hffs], hcf⟩

/-- Dropping leading whitespace keeps every non-whitespace element. -/
theorem mem_dropWhile_ws (c : Char) (l : List Char) (hm : c ∈ l)
    (hw : jsWhitespace c = false) : c ∈ l.dropWhile jsWhitespace := by
  induction l with
  | nil => cases hm
  | cons d t ih =>
    rcases List.mem_cons.mp hm with rfl | hmt
    · simp [List.dropWhile, hw]
    · by_cases hd : jsWhitespace d
      · simpa [List.dropWhile, hd] using ih hmt
      · simp [List.dropWhile, hd, List.mem_cons_of_mem, hmt]

/-- Trimming keeps every non-whitespace element. -/
theorem mem_trimL (c : Char) (f : List Char) (hm : c ∈ f)
    (hw : jsWhitespace c = false) : c ∈ trimL f := by
  unfold trimL
  rw [List.mem_reverse]
  exact mem_dropWhile_ws c _ (List.mem_reverse.mpr (mem_dropWhile_ws c f hm hw)) hw

/-- C7 (amended): on a completion with no bracket span the route returns the
comma/newline splitting fallback capped at 20 entries without throwing, and
that list is non-empty whenever the completion has at least one character
that is not stripped, not a separator and not whitespace (the claimed
unconditional non-emptiness fails, see the counterexample). -/
theorem extractSkills_fallback_spec (parseArr : String → Option (List String))
    (s : String) (hspan : jsFirstArrSpan s = none)
    (hc : ∃ c ∈ s.data, strippedChar c = false ∧ sepChar c = false ∧
      jsWhitespace c = false) :
    extractSkillsHandler parseArr s = (fallbackSkills s).take 20 ∧
    extractSkillsHandler parseArr s ≠ [] := by
  have hhandler : extractSkillsHandler parseArr s = (fallbackSkills s).take 20 := by
    simp only [extractSkillsHandler, hspan]
  obtain ⟨c, hcm, hstrip, hsep, hws⟩ := hc
  have hfilter : c ∈ s.data.filter (fun c => !strippedChar c) :=
    List.mem_filter.mpr ⟨hcm, by rw [hstrip]; rfl⟩
  obtain ⟨f, hf, hcf⟩ := mem_splitSeps c _ hfilter hsep
  have htrim : c ∈ trimL f := mem_trimL c f hcf hws
  have htne : ¬(trimL f).isEmpty := by
    cases htl : trimL f with
    | nil => rw [htl] at htrim; cases htrim
    | cons x xs => simp
  have hmemfilter : trimL f ∈ ((splitSeps (s.data.filter (fun c => !strippedChar c))).map
      trimL).filter (fun f => !f.isEmpty) := by
    refine List.mem_filter.mpr ⟨List.mem_map_of_mem trimL hf, by simpa using htne⟩
  have hfb : fallbackSkills s ≠ [] := by
    unfold fallbackSkills
    intro hnil
    rw [List.map_eq_nil_iff] at hnil
    rw [hnil] at hmemfilter
    cases hmemfilter
  refine ⟨hhandler, ?_⟩
  rw [hhandler]
  intro hnil
  rcases List.take_eq_nil_iff.mp hnil with h20 | hfbnil
  · cases h20
  · exact hfb hfbnil

/-- C7 witness: the fallback on a plain comma-separated completion. -/
theorem extractSkills_fallback_spec_inst :
    extractSkillsHandler (fun _ => none) "Python, React" =
      (fallbackSkills "Python, React").take 20 ∧
    extractSkillsHandler (fun _ => none) "Python, React" ≠ [] :=
  extractSkills_fallback_spec (fun _ => none) "Python, React" rfl (by decide)

/-- C7 counterexample: the completion consisting of a lone comma contains no
JSON array, yet the route returns the empty list, refuting the claimed
unconditional non-emptiness. -/
theorem extractSkills_empty_counterexample :
    jsFirstArrSpan "," = none ∧ extractSkillsHandler (fun _ => none) "," = [] :=
  ⟨rfl, rfl⟩

/-- The pagination envelope returned by the jobs list (`src/unnamed/part_001`,
`GET /`) and the feed (`src/unnamed/part_002`, `GET /feed`). -/
structure Pagination where
  page : ℕ
  limit : ℕ
  total : ℕ
  pages : ℕ
deriving DecidableEq

/-- The shared pagination computation of both list handlers: skip
`(page - 1) * limit` documents, return at most `limit`, and report
`pages = Math.ceil(total / limit)`. -/
def paginate {α : Type} (items : List α) (page limit : ℕ) : List α × Pagination :=
  ((items.drop ((page - 1) * limit)).take limit,
   { page := page, limit := limit, total := items.length,
     pages := (⌈(items.length : ℚ) / (limit : ℚ)⌉).toNat })

/-- C8: the reported page count is the ceiling of `total / limit`, and any
page beyond it yields an empty item list (a successful response, not an
error). -/
theorem paginate_pages_ceil_and_beyond_empty {α : Type} (items : List α)
    (page limit : ℕ) (hl : 1 ≤ limit) :
    (((paginate items page limit).2.pages : ℤ) =
      ⌈(items.length : ℚ) / (limit : ℚ)⌉) ∧
    ((paginate items page limit).2.pages < page →
      (paginate items page limit).1 = []) := by
  have hlq : (0 : ℚ) < (limit : ℚ) := by exact_mod_cast hl
  have hx0 : (0 : ℚ) ≤ (items.length : ℚ) / (limit : ℚ) :=
    div_nonneg (by positivity) hlq.le
  have hceil0 : (0 : ℤ) ≤ ⌈(items.length : ℚ) / (limit : ℚ)⌉ := Int.ceil_nonneg hx0
  constructor
  · exact Int.toNat_of_nonneg hceil0
  · intro hp
    have hp' : (⌈(items.length : ℚ) / (limit : ℚ)⌉).toNat < page := hp
    have hPle : (⌈(items.length : ℚ) / (limit : ℚ)⌉).toNat ≤ page - 1 := by omega
    have htotq : (items.length : ℚ) ≤
        ((⌈(items.length : ℚ) / (limit : ℚ)⌉).toNat : ℚ) * (limit : ℚ) := by
      have h1 : (items.length : ℚ) / (limit : ℚ) ≤
          ((⌈(items.length : ℚ) / (limit : ℚ)⌉ : ℤ) : ℚ) := Int.le_ceil _
      have h2 : ((⌈(items.length : ℚ) / (limit : ℚ)⌉ : ℤ) : ℚ) =
          ((⌈(items.length : ℚ) / (limit : ℚ)⌉).toNat : ℚ) := by
        exact_mod_cast (Int.toNat_of_nonneg hceil0).symm
      rw [h2] at h1
      calc (items.length : ℚ)
          = (items.length : ℚ) / (limit : ℚ) * (limit : ℚ) := by
            rw [div_mul_cancel₀ _ hlq.ne']
        _ ≤ ((⌈(items.length : ℚ) / (limit : ℚ)⌉).toNat : ℚ) * (limit : ℚ) :=
            mul_le_mul_of_nonneg_right h1 hlq.le
    have htotn : items.length ≤ (⌈(items.length : ℚ) / (limit : ℚ)⌉).toNat * limit := by
      exact_mod_cast htotq
    have hfinal : items.length ≤ (page - 1) * limit :=
      le_trans htotn (Nat.mul_le_mul_right limit hPle)
    show (items.drop ((page - 1) * limit)).take limit = []
    rw [List.drop_eq_nil_of_le hfinal, List.take_nil]

/-- C8 witness: three items and limit two give two pages; page three is
beyond the last page and returns no items. -/
theorem paginate_pages_ceil_and_beyond_empty_inst :
    (((paginate ["a", "b", "c"] 3 2).2.pages : ℤ) =
      ⌈(((["a", "b", "c"] : List String).length : ℚ) / ((2 : ℕ) : ℚ))⌉) ∧
    (paginate ["a", "b", "c"] 3 2).1 = [] := by
  have hceil : ⌈(((["a", "b", "c"] : List String).length : ℚ) / ((2 : ℕ) : ℚ))⌉ = 2 := by
    rw [Int.ceil_eq_iff]
    norm_num
  have hbeyond : (paginate (["a", "b", "c"] : List String) 3 2).2.pages < 3 := by
    show (⌈(((["a", "b", "c"] : List String).length : ℚ) / ((2 : ℕ) : ℚ))⌉).toNat < 3
    rw [hceil]
    decide
  exact ⟨(paginate_pages_ceil_and_beyond_empty ["a", "b", "c"] 3 2 (by decide)).1,
    (paginate_pages_ceil_and_beyond_empty ["a", "b", "c"] 3 2 (by decide)).2 hbeyond⟩
